import Mathlib

/-!
Verification of the prompt-harvester retrieval-and-ranking core.

The definitions below are a shallow embedding of the TypeScript sources:
* `RelationshipMapper` (relationship-mapper module): `classifyRelationship`,
  `isProblemSolvingConversation`, `mightContradict`, `findRelatedConversations`,
  `storeRelationships`, `batchProcessRelationships`;
* the API server module: the `/api/search` handler and `semanticSearch`;
* `schema.sql`: the `conversation_relationships` table
  (primary key `(source_conversation_id, related_conversation_id)`).

JavaScript runtime behaviour is modelled explicitly: a field that can be
`null`/`undefined` at runtime is an `Option`, a method call on a missing value
(`undefined.toLowerCase()`) is an `Except.error "TypeError"`, falsiness of
strings (`""` is falsy) is spelled out, and `RegExp.test(undefined)` coerces
the argument to the string `"undefined"`.  Machine floats are modelled as
exact rationals.
-/

instance instDecEqExcept {ε α : Type} [DecidableEq ε] [DecidableEq α] :
    DecidableEq (Except ε α) := fun x y =>
  match x, y with
  | .error e, .error f => decidable_of_iff (e = f) (by simp)
  | .error _, .ok _ => isFalse (by simp)
  | .ok _, .error _ => isFalse (by simp)
  | .ok a, .ok b => decidable_of_iff (a = b) (by simp)

/-- Case-sensitive substring containment, the model of JavaScript
`String.prototype.includes` and of `RegExp.test` with a literal pattern. -/
def containsSub (hay needle : String) : Bool :=
  decide (needle.toList <:+: hay.toList)

/-- ASCII lowercasing, the model of `String.prototype.toLowerCase` on the
ASCII fragment the source's keyword lists live in (list-level map, so that
proofs can evaluate it). -/
def strToLower (s : String) : String := String.mk (s.data.map Char.toLower)

/-- JavaScript string coercion of a possibly-missing value: `String(undefined)`
is `"undefined"` (a missing field never matches any of the code's patterns). -/
def jsStr : Option String → String
  | some s => s
  | none => "undefined"

/-- JavaScript truthiness of a possibly-missing string: `undefined`, `null`
and `""` are falsy. -/
def truthyStr : Option String → Bool
  | some s => s != ""
  | none => false

/-- The row shape the relationship mapper works with (interface
`Conversation` in the source).  `user_prompt` and `topics` are `Option`s
because at runtime they can be SQL `NULL` or absent from the selected
columns, even though the TypeScript interface declares them non-optional. -/
structure Conversation where
  id : String
  user_prompt : Option String
  project : Option String
  platform : String
  started_at : Int
  topics : Option (List String)
deriving Repr, DecidableEq

/-- The `problemKeywords` list from `isProblemSolvingConversation`. -/
def problemKeywords : List String :=
  ["error", "issue", "problem", "bug", "failed", "broken",
   "not working", "doesn't work", "help", "fix", "solve"]

/-- `isProblemSolvingConversation`: lowercases `conv.user_prompt` and checks
the keyword list.  When `user_prompt` is `null`/`undefined` the call
`.toLowerCase()` throws a `TypeError`. -/
def isProblemSolvingConversation (conv : Conversation) : Except String Bool :=
  match conv.user_prompt with
  | none => .error "TypeError"
  | some s =>
    let promptLower := strToLower s
    .ok (problemKeywords.any (fun kw => containsSub promptLower kw))

/-- The `contradictPatterns` table from `mightContradict`: each entry is an
affirmative pattern and the alternatives of its opposing pattern (all
case-insensitive literal alternations in the source regexes). -/
def contradictPatterns : List (String × List String) :=
  [("should use", ["should not use", "shouldn't use", "avoid"]),
   ("recommended", ["not recommended", "deprecated", "obsolete"]),
   ("works with", ["doesn't work", "incompatible"])]

/-- Case-insensitive test of one literal pattern against a possibly-missing
text, the model of `/pat/i.test(text)` (a missing text coerces to
`"undefined"` and never matches). -/
def testCI (text : Option String) (pat : String) : Bool :=
  containsSub (strToLower (jsStr text)) pat

/-- `mightContradict`: one text matches an affirmative pattern and the other
matches the corresponding opposing pattern, checked in both directions. -/
def mightContradict (source target : Conversation) : Bool :=
  contradictPatterns.any (fun pr =>
    (testCI source.user_prompt pr.1 && pr.2.any (fun o => testCI target.user_prompt o)) ||
    (pr.2.any (fun o => testCI source.user_prompt o) && testCI target.user_prompt pr.1))

/-- The `sharedTopics` computation of rule 3:
`source.topics.filter(t => target.topics.includes(t))`.  Accessing `.filter`
on a missing `source.topics` throws; `target.topics.includes` throws only if
the filter callback actually runs, i.e. only when `source.topics` is
non-empty. -/
def sharedTopics (source target : Conversation) : Except String (List String) :=
  match source.topics with
  | none => .error "TypeError"
  | some st =>
    match st with
    | [] => .ok []
    | _ :: _ =>
      match target.topics with
      | none => .error "TypeError"
      | some tt => .ok (st.filter (fun t => tt.contains t))

/-- Rule 3 of the classifier: both conversations are problem-solving (with
short-circuit evaluation: the target is only inspected when the source
matched) and, in that case, the shared-topics list is non-empty. -/
def ruleSolvesSame (source target : Conversation) : Except String Bool :=
  match isProblemSolvingConversation source with
  | .error e => .error e
  | .ok false => .ok false
  | .ok true =>
    match isProblemSolvingConversation target with
    | .error e => .error e
    | .ok false => .ok false
    | .ok true =>
      match sharedTopics source target with
      | .error e => .error e
      | .ok sh => .ok (decide (sh.length > 0))

/-- `classifyRelationship` from the relationship mapper, rule for rule:
1. `similarity > 0.95` gives `near_duplicate`;
2. both projects truthy and equal: `builds_on` when the `started_at`
   timestamps differ in either direction, fall through when they are equal;
3. both problem-solving with shared topics: `solves_same_problem`;
4. the contradiction heuristic: `contradicts`;
5. `similarity > 0.85`: `references`;
6. otherwise `related`.
`classifyTail` is the code that follows the rule-2 `if` block (rules 3-6),
reachable both when rule 2's guard fails and when the timestamps are equal. -/
def classifyTail (source target : Conversation) (similarity : Rat) : Except String String :=
  match ruleSolvesSame source target with
  | .error e => .error e
  | .ok true => .ok "solves_same_problem"
  | .ok false =>
    if mightContradict source target then .ok "contradicts"
    else if similarity > mkRat 85 100 then .ok "references"
    else .ok "related"

def classifyRelationship (source target : Conversation) (similarity : Rat) :
    Except String String :=
  if similarity > mkRat 95 100 then .ok "near_duplicate"
  else
    if truthyStr source.project && truthyStr target.project
        && source.project == target.project then
      if source.started_at > target.started_at then .ok "builds_on"
      else if source.started_at < target.started_at then .ok "builds_on"
      else classifyTail source target similarity
    else classifyTail source target similarity

/-- C1 -- With `similarityScore = 0.97` the first rule fires and the result is
`near_duplicate` for every pair, in particular for pairs whose non-null
projects are equal: rule 1 (`near_duplicate`) precedes rule 2 (`builds_on`)
and the first matching rule wins. -/
theorem classify_near_duplicate_precedes_builds_on
    (s t : Conversation) (p : String)
    (_hs : s.project = some p) (_ht : t.project = some p) :
    classifyRelationship s t (mkRat 97 100) = .ok "near_duplicate" := by
  have h : mkRat 97 100 > mkRat 95 100 := by decide
  simp [classifyRelationship, h]

theorem classify_near_duplicate_precedes_builds_on_witness :
    classifyRelationship
      ⟨"a", some "question", some "alpha", "claude-code", 10, some ["mcp"]⟩
      ⟨"b", some "question", some "alpha", "claude-code", 20, some ["mcp"]⟩
      (mkRat 97 100) = .ok "near_duplicate" :=
  classify_near_duplicate_precedes_builds_on
    ⟨"a", some "question", some "alpha", "claude-code", 10, some ["mcp"]⟩
    ⟨"b", some "question", some "alpha", "claude-code", 20, some ["mcp"]⟩
    "alpha" rfl rfl

/-- C3 -- Contrary to the spec, the classifier does not treat a missing
`user_prompt` as a non-matching keyword check: when the source text contains a
problem keyword and the target's `user_prompt` is missing (exactly the shape
`findRelatedConversations` produces, since its SQL omits `user_prompt` for
targets), `isProblemSolvingConversation(target)` calls `.toLowerCase()` on
`undefined` and the classification throws instead of falling through. -/
theorem classify_throws_on_missing_user_prompt :
    classifyRelationship
      ⟨"a", some "please help fix this bug", none, "claude-code", 10, some ["mcp"]⟩
      ⟨"b", none, none, "claude-code", 20, some ["mcp"]⟩
      (mkRat 9 10) = .error "TypeError" := by
  decide

/-- C8 (counterexample) -- Two failing inputs for the claim.  (1) A pair with
similarity `0.9 <= 0.95`, equal non-null projects and *equal* `startedAt`
timestamps is not classified `builds_on`: both timestamp branches of rule 2
fail and the code falls through to rule 5 (`references`).  (2) Equal
non-null but *empty* `project` values also do not give `builds_on`: the
empty string is falsy in JavaScript, so `source.project && target.project`
fails. -/
theorem classify_same_project_equal_timestamps_not_builds_on :
    (⟨"a", some "hello world", some "alpha", "claude-code", 10, some []⟩ :
        Conversation).project = some "alpha" ∧
    (⟨"b", some "hello world", some "alpha", "claude-code", 10, some []⟩ :
        Conversation).project = some "alpha" ∧
    (mkRat 9 10 ≤ mkRat 95 100) ∧
    classifyRelationship
      ⟨"a", some "hello world", some "alpha", "claude-code", 10, some []⟩
      ⟨"b", some "hello world", some "alpha", "claude-code", 10, some []⟩
      (mkRat 9 10) = .ok "references" ∧
    classifyRelationship
      ⟨"a", some "hello world", some "", "claude-code", 20, some []⟩
      ⟨"b", some "hello world", some "", "claude-code", 10, some []⟩
      (mkRat 9 10) = .ok "references" := by
  refine ⟨rfl, rfl, by norm_num, ?_, ?_⟩ <;> decide

/-- C8 (amended) -- For every pair with similarity at most `0.95` where both
conversations have non-null, *non-empty* and equal `project` values and the
two `startedAt` timestamps *differ*, the classifier returns `builds_on`. -/
theorem classify_same_project_builds_on
    (s t : Conversation) (p : String) (sim : Rat)
    (hsim : sim ≤ mkRat 95 100) (hs : s.project = some p) (ht : t.project = some p)
    (hp : p ≠ "") (hne : s.started_at ≠ t.started_at) :
    classifyRelationship s t sim = .ok "builds_on" := by
  have h1 : ¬ (sim > mkRat 95 100) := not_lt.mpr hsim
  have hpb : (p != "") = true := bne_iff_ne.mpr hp
  rcases lt_or_gt_of_ne hne with hlt | hgt
  · have h2 : ¬ (s.started_at > t.started_at) := not_lt.mpr (le_of_lt hlt)
    simp [classifyRelationship, h1, hs, ht, truthyStr, hpb, h2, hlt]
  · simp [classifyRelationship, h1, hs, ht, truthyStr, hpb, hgt]

theorem classify_same_project_builds_on_witness :
    classifyRelationship
      ⟨"a", some "hello world", some "alpha", "claude-code", 20, some []⟩
      ⟨"b", some "hello world", some "alpha", "claude-code", 10, some []⟩
      (mkRat 9 10) = .ok "builds_on" :=
  classify_same_project_builds_on
    ⟨"a", some "hello world", some "alpha", "claude-code", 20, some []⟩
    ⟨"b", some "hello world", some "alpha", "claude-code", 10, some []⟩
    "alpha" (mkRat 9 10) (by norm_num) rfl rfl (by decide) (by decide)

/-- Outcome of the `/api/search` handler's validation step: either a 400
response (no backend touched) or an invocation of `semanticSearch` with the
given query string. -/
inductive SearchOutcome where
  | badRequest (msg : String)
  | invoked (query : String)
deriving Repr, DecidableEq

/-- The `/api/search` handler's query validation: `if (!query)` return the
400 response `'No search query provided'`, else call
`semanticSearch(query, filters, limit)`.  `none` models an absent `query`
field in the request body; JavaScript falsiness rejects exactly `undefined`,
`null` and the empty string. -/
def handleSearch : Option String → SearchOutcome
  | none => .badRequest "No search query provided"
  | some q => if q == "" then .badRequest "No search query provided" else .invoked q

/-- C7 (counterexample) -- The whitespace-only query `" "` is truthy in
JavaScript, so the handler does not reject it: `semanticSearch` is invoked
with it, contradicting the claim that every empty *or whitespace-only* query
fails before reaching a backend. -/
theorem search_whitespace_query_reaches_backend :
    (" " : String).data.all (fun c => c == ' ') = true ∧
    handleSearch (some " ") = .invoked " " := by
  decide

/-- C7 (amended) -- The handler rejects exactly the absent and the empty
query with the 400 error `'No search query provided'` before invoking the
search backend; every non-empty query, including whitespace-only ones, is
passed to the backend. -/
theorem search_rejects_exactly_falsy_queries (q : Option String) :
    handleSearch q = .badRequest "No search query provided"
      ↔ (q = none ∨ q = some "") := by
  cases q with
  | none => simp [handleSearch]
  | some s =>
    by_cases h : s = ""
    · subst h; simp [handleSearch]
    · have hb : (s == "") = false := beq_eq_false_iff_ne.mpr h
      simp [handleSearch, hb, h]

/-- A hit returned by one of the two sub-searches (spec §3 `SearchHit`). -/
structure SearchHit where
  recordId : String
  rawScore : Rat
deriving Repr, DecidableEq

/-- Modelled from the spec: the hybrid Result Fusion Engine (`fuse`) is not
implemented in the repository sources — `semanticSearch` in the API server
explicitly falls back to full-text search only, `TODO.md` lists
"Implement Reciprocal Rank Fusion (RRF) for hybrid search" and the
`/api/search/hybrid` endpoint as open items, and only the dashboard client
calls that endpoint.  Per §4.1: the 1-indexed rank of a record within one
source's result list. -/
def rankOf (hits : List SearchHit) (rid : String) : Option Nat :=
  (hits.findIdx? (fun h => h.recordId == rid)).map (· + 1)

/-- Modelled from the spec (§4.1 step 4): a source where the record appears
at rank `r` contributes `weight / (k + r)` with `k = 60`; a source where it
does not appear contributes nothing. -/
def sourceContribution (w : Rat) (hits : List SearchHit) (rid : String) : Rat :=
  match rankOf hits rid with
  | some r => w / ((60 : Rat) + (r : Rat))
  | none => 0

/-- Modelled from the spec (§4.1 steps 4-5): contributions are summed across
the two sources per `recordId`. -/
def fusedScore (wLex wVec : Rat) (lex vec : List SearchHit) (rid : String) : Rat :=
  sourceContribution wLex lex rid + sourceContribution wVec vec rid

/-- Descending order on fused results: `a` precedes `b` when `b`'s fused
score is at most `a`'s. -/
def fusedGE (a b : String × Rat) : Prop := b.2 ≤ a.2

instance : DecidableRel fusedGE := fun a b => inferInstanceAs (Decidable (b.2 ≤ a.2))

instance : IsTotal (String × Rat) fusedGE := ⟨fun a b => le_total b.2 a.2⟩

instance : IsTrans (String × Rat) fusedGE := ⟨fun _ _ _ h1 h2 => le_trans h2 h1⟩

/-- First-occurrence deduplication of record ids (each distinct `recordId`
gets one fused result). -/
def dedupIds (seen : List String) : List String → List String
  | [] => []
  | x :: xs => if seen.contains x then dedupIds seen xs else x :: dedupIds (x :: seen) xs

/-- Modelled from the spec (§4.1 step 6 and the `FusedResult` contract):
compute the fused score of every distinct `recordId` found by either source,
with the default equal weights `0.5`/`0.5`, and sort descending by fused
score.  (The spec's recency tie-break is not exercised here: insertion sort
is stable, and the scenario below has no ties.) -/
def fuse (lex vec : List SearchHit) : List (String × Rat) :=
  let ids := dedupIds [] ((lex ++ vec).map SearchHit.recordId)
  List.insertionSort fusedGE
    (ids.map (fun rid => (rid, fusedScore (mkRat 1 2) (mkRat 1 2) lex vec rid)))

/-- The concrete scenario of the spec (§8): lexical returns conv1 then
conv2, vector returns conv2 (0.91) then conv3 (0.81). -/
def lexScenario : List SearchHit := [⟨"conv1", 1⟩, ⟨"conv2", mkRat 1 2⟩]

def vecScenario : List SearchHit := [⟨"conv2", mkRat 91 100⟩, ⟨"conv3", mkRat 81 100⟩]

/-- C2 -- `fuse` orders its results descending by fused score, and in the
concrete scenario conv2 (found by both sources: `0.5/61 + 0.5/62`) outranks
conv1 (`0.5/61`) and conv3 (`0.5/62`), giving the fused order
`[conv2, conv1, conv3]`. -/
theorem fuse_rrf_order :
    (∀ lex vec : List SearchHit, List.Sorted fusedGE (fuse lex vec)) ∧
    fusedScore (mkRat 1 2) (mkRat 1 2) lexScenario vecScenario "conv2"
      > fusedScore (mkRat 1 2) (mkRat 1 2) lexScenario vecScenario "conv1" ∧
    fusedScore (mkRat 1 2) (mkRat 1 2) lexScenario vecScenario "conv2"
      > fusedScore (mkRat 1 2) (mkRat 1 2) lexScenario vecScenario "conv3" ∧
    (fuse lexScenario vecScenario).map Prod.fst = ["conv2", "conv1", "conv3"] := by
  have hhalf : mkRat 1 2 = (1 : Rat)/2 := by norm_num [mkRat]
  have h1 : fusedScore (mkRat 1 2) (mkRat 1 2) lexScenario vecScenario "conv1"
      = (1 : Rat)/2/61 := by
    simp [fusedScore, sourceContribution, rankOf, lexScenario, vecScenario,
      List.findIdx?_cons, hhalf]
    norm_num
  have h2 : fusedScore (mkRat 1 2) (mkRat 1 2) lexScenario vecScenario "conv2"
      = (1 : Rat)/2/62 + (1 : Rat)/2/61 := by
    simp [fusedScore, sourceContribution, rankOf, lexScenario, vecScenario,
      List.findIdx?_cons, hhalf]
    norm_num
  have h3 : fusedScore (mkRat 1 2) (mkRat 1 2) lexScenario vecScenario "conv3"
      = (1 : Rat)/2/62 := by
    simp [fusedScore, sourceContribution, rankOf, lexScenario, vecScenario,
      List.findIdx?_cons, hhalf]
    norm_num
  refine ⟨fun lex vec => List.sorted_insertionSort fusedGE _, ?_, ?_, ?_⟩
  · rw [h1, h2]; norm_num
  · rw [h2, h3]; norm_num
  · have hids : dedupIds [] ((lexScenario ++ vecScenario).map SearchHit.recordId)
        = ["conv1", "conv2", "conv3"] := by decide
    rw [fuse]
    simp only [hids, List.map_cons, List.map_nil]
    rw [List.insertionSort, List.insertionSort, List.insertionSort, List.insertionSort]
    rw [List.orderedInsert, List.orderedInsert]
    rw [if_pos (by rw [fusedGE, h2, h3]; norm_num)]
    rw [List.orderedInsert]
    rw [if_neg (by rw [fusedGE, h1, h2]; norm_num)]
    rw [List.orderedInsert]
    rw [if_pos (by rw [fusedGE, h1, h3]; norm_num)]
    simp

/-- The `RelationshipMatch` interface of the relationship mapper (one
classified neighbor). -/
structure RelationshipMatch where
  id : String
  score : Rat
  type : String
  project : Option String
  started_at : Int
deriving Repr, DecidableEq

/-- A row of `conversation_relationships` (schema.sql): `source` and
`target` are `source_conversation_id` / `related_conversation_id`, `score`
is `similarity_score`, `rtype` is `relationship_type`.  The table's primary
key is `(source, target)`. -/
structure StoredEdge where
  source : String
  target : String
  score : Rat
  rtype : String
  detected_at : Int
deriving Repr, DecidableEq

def edgeKey (e : StoredEdge) : String × String := (e.source, e.target)

def matchesKey (s t : String) (r : StoredEdge) : Bool := r.source == s && r.target == t

/-- The `DO UPDATE` part of the upsert: a row whose ordered key matches the
incoming edge is overwritten (`similarity_score`, `relationship_type`,
`detected_at`), any other row is untouched. -/
def updEdge (e : StoredEdge) (r : StoredEdge) : StoredEdge :=
  if matchesKey e.source e.target r then
    { r with score := e.score, rtype := e.rtype, detected_at := e.detected_at } else r

/-- One `INSERT ... ON CONFLICT (source_conversation_id,
related_conversation_id) DO UPDATE` statement: if a row with the same
ordered key exists it is overwritten in place, otherwise a new row is
appended. -/
def upsertEdge (db : List StoredEdge) (e : StoredEdge) : List StoredEdge :=
  if db.any (matchesKey e.source e.target) then db.map (updEdge e)
  else db ++ [e]

/-- `storeRelationships`: upsert one row per classified neighbor, with
`detected_at` set to the transaction time `now`. -/
def storeRelationships (now : Int) (sourceId : String)
    (rels : List RelationshipMatch) (db : List StoredEdge) : List StoredEdge :=
  rels.foldl (fun d r => upsertEdge d ⟨sourceId, r.id, r.score, r.type, now⟩) db

def edgeKeys (db : List StoredEdge) : List (String × String) := db.map edgeKey

/-- SQL `SELECT ... WHERE source = k.1 AND target = k.2` (first matching
row; under the primary-key invariant there is at most one). -/
def lookupEdge (k : String × String) (db : List StoredEdge) : Option StoredEdge :=
  db.find? (matchesKey k.1 k.2)

theorem matchesKey_eq_true_iff (s t : String) (r : StoredEdge) :
    matchesKey s t r = true ↔ r.source = s ∧ r.target = t := by
  simp [matchesKey]

theorem matchesKey_iff (s t : String) (r : StoredEdge) :
    matchesKey s t r = true ↔ edgeKey r = (s, t) := by
  simp [matchesKey, edgeKey, Prod.ext_iff]

theorem any_matchesKey_iff (db : List StoredEdge) (s t : String) :
    db.any (matchesKey s t) = true ↔ (s, t) ∈ edgeKeys db := by
  simp only [List.any_eq_true, edgeKeys, List.mem_map]
  constructor
  · rintro ⟨r, hr, hm⟩; exact ⟨r, hr, (matchesKey_iff s t r).mp hm⟩
  · rintro ⟨r, hr, hm⟩; exact ⟨r, hr, (matchesKey_iff s t r).mpr hm⟩

theorem updEdge_of_matches (e r : StoredEdge)
    (h : matchesKey e.source e.target r = true) : updEdge e r = e := by
  obtain ⟨h1, h2⟩ := (matchesKey_eq_true_iff _ _ _).mp h
  rw [updEdge, if_pos h]
  cases e; cases r
  simp_all

theorem updEdge_of_not_matches (e r : StoredEdge)
    (h : ¬ matchesKey e.source e.target r = true) : updEdge e r = r := by
  simp [updEdge, h]

theorem matchesKey_updEdge (a b : String) (e r : StoredEdge) :
    matchesKey a b (updEdge e r) = matchesKey a b r := by
  rw [updEdge]
  by_cases h : matchesKey e.source e.target r = true
  · rw [if_pos h]; rfl
  · rw [if_neg h]

theorem edgeKey_updEdge (e r : StoredEdge) : edgeKey (updEdge e r) = edgeKey r := by
  rw [updEdge]
  by_cases h : matchesKey e.source e.target r = true
  · rw [if_pos h]; rfl
  · rw [if_neg h]

theorem edgeKeys_upsert (db : List StoredEdge) (e : StoredEdge) :
    edgeKeys (upsertEdge db e) =
      if edgeKey e ∈ edgeKeys db then edgeKeys db else edgeKeys db ++ [edgeKey e] := by
  by_cases h : edgeKey e ∈ edgeKeys db
  · rw [if_pos h]
    have ha : db.any (matchesKey e.source e.target) = true := by
      apply (any_matchesKey_iff db e.source e.target).mpr
      exact h
    rw [upsertEdge, if_pos ha, edgeKeys, List.map_map]
    exact List.map_congr_left (fun r _ => edgeKey_updEdge e r)
  · rw [if_neg h]
    have ha : ¬ db.any (matchesKey e.source e.target) = true := fun hc =>
      h ((any_matchesKey_iff db e.source e.target).mp hc)
    rw [upsertEdge, if_neg ha, edgeKeys, List.map_append]
    rfl

theorem nodup_edgeKeys_upsert (db : List StoredEdge) (e : StoredEdge)
    (h : (edgeKeys db).Nodup) : (edgeKeys (upsertEdge db e)).Nodup := by
  rw [edgeKeys_upsert]
  by_cases hm : edgeKey e ∈ edgeKeys db
  · rwa [if_pos hm]
  · rw [if_neg hm]
    simpa [List.nodup_append] using ⟨h, hm⟩

theorem lookupEdge_map_updEdge (k : String × String) (e : StoredEdge)
    (db : List StoredEdge) :
    lookupEdge k (db.map (updEdge e)) = Option.map (updEdge e) (lookupEdge k db) := by
  rw [lookupEdge, lookupEdge, List.find?_map]
  have hp : (matchesKey k.1 k.2 ∘ updEdge e) = matchesKey k.1 k.2 :=
    funext (fun r => matchesKey_updEdge k.1 k.2 e r)
  rw [hp]

theorem lookupEdge_upsert (db : List StoredEdge) (e : StoredEdge) (k : String × String) :
    lookupEdge k (upsertEdge db e) = if k = edgeKey e then some e else lookupEdge k db := by
  by_cases ha : db.any (matchesKey e.source e.target) = true
  · rw [upsertEdge, if_pos ha, lookupEdge_map_updEdge]
    by_cases hke : k = edgeKey e
    · subst hke
      rw [if_pos rfl]
      rcases hfind : lookupEdge (edgeKey e) db with _ | r0
      · exfalso
        rcases List.any_eq_true.mp ha with ⟨x, hx, hpx⟩
        rw [lookupEdge] at hfind
        exact (List.find?_eq_none.mp hfind x hx) hpx
      · have hm : matchesKey e.source e.target r0 = true := by
          have := List.find?_some hfind
          exact this
        simp only [Option.map_some']
        rw [updEdge_of_matches e r0 hm]
    · rw [if_neg hke]
      rcases hfind : lookupEdge k db with _ | r0
      · rfl
      · have hm : matchesKey k.1 k.2 r0 = true := List.find?_some hfind
        have hnm : ¬ matchesKey e.source e.target r0 = true := by
          intro hc
          apply hke
          have h1 := (matchesKey_iff k.1 k.2 r0).mp hm
          have h2 := (matchesKey_iff e.source e.target r0).mp hc
          rw [h1] at h2
          rw [edgeKey, ← h2]
        simp only [Option.map_some']
        rw [updEdge_of_not_matches e r0 hnm]
  · rw [upsertEdge, if_neg ha]
    have ha' : ∀ x ∈ db, ¬ matchesKey e.source e.target x = true := fun x hx hp =>
      ha (List.any_eq_true.mpr ⟨x, hx, hp⟩)
    by_cases hke : k = edgeKey e
    · subst hke
      rw [if_pos rfl, lookupEdge, List.find?_append]
      have hnone : db.find? (matchesKey (edgeKey e).1 (edgeKey e).2) = none := by
        rw [List.find?_eq_none]
        intro x hx hpx
        exact ha' x hx hpx
      rw [hnone]
      have hme : matchesKey (edgeKey e).1 (edgeKey e).2 e = true := by
        simp [matchesKey, edgeKey]
      simp [List.find?, hme]
    · rw [if_neg hke, lookupEdge, lookupEdge, List.find?_append]
      have hnone : [e].find? (matchesKey k.1 k.2) = none := by
        rw [List.find?_eq_none]
        intro x hx hpx
        rcases List.mem_singleton.mp hx with rfl
        apply hke
        obtain ⟨h1, h2⟩ := (matchesKey_eq_true_iff _ _ _).mp hpx
        rw [edgeKey, h1, h2]
      rw [hnone]
      cases db.find? (matchesKey k.1 k.2) <;> rfl

/-- The last element of `rels` whose upserted key `(sourceId, id)` equals
`k` — the row that survives a left-to-right sequence of upserts. -/
def lastMatch (sourceId : String) (rels : List RelationshipMatch)
    (k : String × String) : Option RelationshipMatch :=
  rels.reverse.find? (fun r => k == (sourceId, r.id))

theorem lookupEdge_store (now : Int) (sourceId : String)
    (rels : List RelationshipMatch) (db : List StoredEdge) (k : String × String) :
    lookupEdge k (storeRelationships now sourceId rels db) =
      match lastMatch sourceId rels k with
      | some r => some ⟨sourceId, r.id, r.score, r.type, now⟩
      | none => lookupEdge k db := by
  induction rels generalizing db with
  | nil => rfl
  | cons r rest ih =>
    have hstep : storeRelationships now sourceId (r :: rest) db
        = storeRelationships now sourceId rest
            (upsertEdge db ⟨sourceId, r.id, r.score, r.type, now⟩) := rfl
    rw [hstep, ih]
    have hrev : lastMatch sourceId (r :: rest) k
        = match lastMatch sourceId rest k with
          | some r' => some r'
          | none => if k == ((sourceId, r.id) : String × String) then some r else none := by
      rw [lastMatch, lastMatch, List.reverse_cons, List.find?_append]
      cases rest.reverse.find? (fun x => k == (sourceId, x.id)) with
      | none =>
        simp only [List.find?, Option.none_orElse]
        by_cases hk2 : k = ((sourceId, r.id) : String × String)
        · have hb : (k == ((sourceId, r.id) : String × String)) = true :=
            beq_iff_eq.mpr hk2
          rw [hb]; rfl
        · have hb : (k == ((sourceId, r.id) : String × String)) = false :=
            beq_eq_false_iff_ne.mpr hk2
          rw [hb]; rfl
      | some r' => rfl
    rw [hrev]
    cases hl : lastMatch sourceId rest k with
    | some r' => rfl
    | none =>
      rw [lookupEdge_upsert]
      by_cases hk : k = ((sourceId, r.id) : String × String)
      · simp [hk, edgeKey]
      · have hb : (k == ((sourceId, r.id) : String × String)) = false :=
          beq_eq_false_iff_ne.mpr hk
        simp [edgeKey, hb, hk]

theorem nodup_edgeKeys_store (now : Int) (sourceId : String)
    (rels : List RelationshipMatch) (db : List StoredEdge)
    (h : (edgeKeys db).Nodup) :
    (edgeKeys (storeRelationships now sourceId rels db)).Nodup := by
  induction rels generalizing db with
  | nil => exact h
  | cons r rest ih =>
    exact ih (upsertEdge db ⟨sourceId, r.id, r.score, r.type, now⟩)
      (nodup_edgeKeys_upsert db _ h)

theorem edgeKeys_store_of_mem (now : Int) (sourceId : String)
    (rels : List RelationshipMatch) (db : List StoredEdge)
    (h : ∀ r ∈ rels, ((sourceId, r.id) : String × String) ∈ edgeKeys db) :
    edgeKeys (storeRelationships now sourceId rels db) = edgeKeys db := by
  induction rels generalizing db with
  | nil => rfl
  | cons r rest ih =>
    have hk : ((sourceId, r.id) : String × String) ∈ edgeKeys db :=
      h r (List.mem_cons_self _ _)
    have hup : edgeKeys (upsertEdge db ⟨sourceId, r.id, r.score, r.type, now⟩)
        = edgeKeys db := by
      rw [edgeKeys_upsert]
      have he : edgeKey ⟨sourceId, r.id, r.score, r.type, now⟩
          = ((sourceId, r.id) : String × String) := rfl
      rw [he, if_pos hk]
    have hstep : storeRelationships now sourceId (r :: rest) db
        = storeRelationships now sourceId rest
            (upsertEdge db ⟨sourceId, r.id, r.score, r.type, now⟩) := rfl
    rw [hstep, ih _ (fun r' hr' => by
      rw [hup]; exact h r' (List.mem_cons_of_mem _ hr')), hup]

theorem lookupEdge_isSome_mem (k : String × String) (db : List StoredEdge)
    (h : (lookupEdge k db).isSome = true) : k ∈ edgeKeys db := by
  rcases hf : lookupEdge k db with _ | r0
  · rw [hf] at h; simp at h
  · have hm : matchesKey k.1 k.2 r0 = true := List.find?_some hf
    have hmem : r0 ∈ db := List.mem_of_find?_eq_some hf
    have hkey := (matchesKey_iff k.1 k.2 r0).mp hm
    rw [edgeKeys]
    exact List.mem_map.mpr ⟨r0, hmem, by rw [hkey]⟩

theorem lastMatch_isSome (sourceId : String) (rels : List RelationshipMatch)
    (r : RelationshipMatch) (h : r ∈ rels) :
    (lastMatch sourceId rels ((sourceId, r.id) : String × String)).isSome = true := by
  rw [lastMatch]
  have hex : ∃ x ∈ rels.reverse,
      (((sourceId, r.id) : String × String) == (sourceId, x.id)) = true :=
    ⟨r, List.mem_reverse.mpr h, by simp⟩
  exact List.find?_isSome.mpr hex

theorem mem_edgeKeys_after_store (now : Int) (sourceId : String)
    (rels : List RelationshipMatch) (db : List StoredEdge) :
    ∀ r ∈ rels, ((sourceId, r.id) : String × String)
      ∈ edgeKeys (storeRelationships now sourceId rels db) := by
  intro r hr
  apply lookupEdge_isSome_mem
  rw [lookupEdge_store]
  rcases hl : lastMatch sourceId rels ((sourceId, r.id) : String × String) with _ | r'
  · exfalso
    have := lastMatch_isSome sourceId rels r hr
    rw [hl] at this
    simp at this
  · rfl

/-- C4 -- At most one `conversation_relationships` row exists per ordered
`(source, target)` key, and re-running `storeRelationships` for the same
source with the same classified neighbor set is idempotent: (1) the
primary-key uniqueness invariant is preserved, (2) the re-run creates no new
rows, and (3) after the re-run every key maps to exactly the row the re-run
alone would have produced — the upsert overwrote `similarity_score`,
`relationship_type` and `detected_at` in place. -/
theorem relationship_upsert_idempotent
    (now1 now2 : Int) (sourceId : String) (rels : List RelationshipMatch)
    (db : List StoredEdge) (hnd : (edgeKeys db).Nodup) :
    (edgeKeys (storeRelationships now1 sourceId rels db)).Nodup ∧
    edgeKeys (storeRelationships now2 sourceId rels
        (storeRelationships now1 sourceId rels db))
      = edgeKeys (storeRelationships now1 sourceId rels db) ∧
    ∀ k, lookupEdge k (storeRelationships now2 sourceId rels
            (storeRelationships now1 sourceId rels db))
      = lookupEdge k (storeRelationships now2 sourceId rels db) := by
  refine ⟨nodup_edgeKeys_store now1 sourceId rels db hnd, ?_, ?_⟩
  · exact edgeKeys_store_of_mem now2 sourceId rels _
      (fun r hr => mem_edgeKeys_after_store now1 sourceId rels db r hr)
  · intro k
    rw [lookupEdge_store now2 sourceId rels (storeRelationships now1 sourceId rels db) k,
        lookupEdge_store now2 sourceId rels db k,
        lookupEdge_store now1 sourceId rels db k]
    cases lastMatch sourceId rels k <;> rfl

theorem relationship_upsert_idempotent_witness :
    (edgeKeys (storeRelationships 1 "s" [⟨"t", mkRat 9 10, "related", none, 0⟩] [])).Nodup :=
  (relationship_upsert_idempotent 1 2 "s" [⟨"t", mkRat 9 10, "related", none, 0⟩] []
    (by decide)).1

/-- A point of the Qdrant `prompts` collection: its id and its
`conversation_id` payload field (the `must_not` filter of the neighbor
search matches on the payload). -/
structure QdrantPoint where
  id : String
  convPayload : String
deriving Repr, DecidableEq

/-- A row of the `conversations` table as selected by the relationship
mapper (`project`, `platform`, `started_at`, `topics`, and the
`embedding_status` column used by the batch query). -/
structure DbConvRow where
  project : Option String
  platform : String
  started_at : Int
  topics : Option (List String)
  embedding_status : String
deriving Repr, DecidableEq

/-- A scored hit returned by the Qdrant neighbor search. -/
structure RelHit where
  id : String
  score : Rat
deriving Repr, DecidableEq

/-- The external world of the relationship mapper: the `conversations`
table, the first-user-message subquery used by `getConversation`, the
Qdrant point set, and the similarity between a conversation's stored vector
and each point (cosine similarity in the real system). -/
structure Env where
  conversations : List (String × DbConvRow)
  firstUserMsg : String → Option String
  points : List QdrantPoint
  sim : String → String → Rat

/-- Descending order on hit scores (Qdrant returns neighbors best-first). -/
def hitGE (a b : RelHit) : Prop := b.score ≤ a.score

instance : DecidableRel hitGE := fun a b => inferInstanceAs (Decidable (b.score ≤ a.score))

instance : IsTotal RelHit hitGE := ⟨fun a b => le_total b.score a.score⟩

instance : IsTrans RelHit hitGE := ⟨fun _ _ _ h1 h2 => le_trans h2 h1⟩

/-- Descending order on `started_at` (the batch query's `ORDER BY
c.started_at DESC`). -/
def convGE (a b : String × DbConvRow) : Prop := b.2.started_at ≤ a.2.started_at

instance : DecidableRel convGE :=
  fun a b => inferInstanceAs (Decidable (b.2.started_at ≤ a.2.started_at))

instance : IsTotal (String × DbConvRow) convGE :=
  ⟨fun a b => le_total b.2.started_at a.2.started_at⟩

instance : IsTrans (String × DbConvRow) convGE := ⟨fun _ _ _ h1 h2 => le_trans h2 h1⟩

/-- `qdrant.retrieve('prompts', { ids: [conversationId] })`: the point
whose id is the conversation id, if stored. -/
def qdrantRetrieve (env : Env) (cid : String) : Option QdrantPoint :=
  env.points.find? (fun p => p.id == cid)

/-- `qdrant.search('prompts', ...)` with `score_threshold` and the
`must_not [{ key: 'conversation_id', match: { value: conversationId } }]`
filter: the points scoring at least `threshold` whose payload differs from
`cid`, best score first, at most `lim` of them. -/
def qdrantSearch (env : Env) (cid : String) (threshold : Rat) (lim : Nat) : List RelHit :=
  (List.insertionSort hitGE
    ((env.points.filter (fun p =>
        decide (threshold ≤ env.sim cid p.id) && p.convPayload != cid)).map
      (fun p => ⟨p.id, env.sim cid p.id⟩))).take lim

/-- Building a `Conversation` value from a database row; `up` is whatever
the executed SQL supplied for `user_prompt` (`none` when the query did not
select that column). -/
def conversationFromRow (cid : String) (up : Option String) (r : DbConvRow) : Conversation :=
  ⟨cid, up, r.project, r.platform, r.started_at, r.topics⟩

/-- `SELECT ... FROM conversations WHERE id = $1` (first row). -/
def getConversationRow (env : Env) (cid : String) : Option DbConvRow :=
  (env.conversations.find? (fun c => c.1 == cid)).map Prod.snd

/-- `getConversation`: the conversation row together with the first user
message as `user_prompt`; throws when the conversation does not exist. -/
def getConversation (env : Env) (cid : String) : Except String Conversation :=
  match getConversationRow env cid with
  | none => .error ("Conversation " ++ cid ++ " not found")
  | some r => .ok (conversationFromRow cid (env.firstUserMsg cid) r)

/-- The classification loop of `findRelatedConversations`: for each hit,
look up the target's row (`conversationMap.get`); a hit whose row is
missing is skipped with `continue` — no log, no count.  The target
`Conversation` is built *without* `user_prompt` because the bulk SQL does
not select it.  A thrown classification error aborts the whole loop. -/
def classifyLoop (env : Env) (sourceConv : Conversation) :
    List RelHit → Except String (List RelationshipMatch)
  | [] => .ok []
  | h :: rest =>
    match getConversationRow env h.id with
    | none => classifyLoop env sourceConv rest
    | some row =>
      match classifyRelationship sourceConv (conversationFromRow h.id none row) h.score with
      | .error e => .error e
      | .ok ty =>
        match classifyLoop env sourceConv rest with
        | .error e => .error e
        | .ok restRels =>
          .ok (⟨h.id, h.score, ty, row.project, row.started_at⟩ :: restRels)

/-- The observable outcome of one `findRelatedConversations` call: its
return value (or thrown error), the relationship table afterwards, and the
console output. -/
structure FindResult where
  result : Except String (List RelationshipMatch)
  edges : List StoredEdge
  log : List String
deriving DecidableEq

def warnNoEmbedding (cid : String) : String :=
  "warn: No embedding found for conversation " ++ cid

def errorFinding (cid : String) : String :=
  "error: Error finding related conversations for " ++ cid

/-- `findRelatedConversations(conversationId, threshold = 0.8, limit = 20)`:
retrieve the stored embedding (warn and return `[]` when absent), search
neighbors, return `[]` early when there are none, fetch the source
conversation, classify every neighbor whose row exists, store the edges,
and return them.  Thrown errors are logged by the `catch` block and
re-thrown; edges are only written on full success. -/
def findRelatedConversations (env : Env) (db : List StoredEdge) (now : Int)
    (cid : String) (threshold : Rat) (lim : Nat) : FindResult :=
  match qdrantRetrieve env cid with
  | none => ⟨.ok [], db, [warnNoEmbedding cid]⟩
  | some _ =>
    if (qdrantSearch env cid threshold lim).isEmpty then ⟨.ok [], db, []⟩
    else
      match getConversation env cid with
      | .error e => ⟨.error e, db, [errorFinding cid]⟩
      | .ok sourceConv =>
        match classifyLoop env sourceConv (qdrantSearch env cid threshold lim) with
        | .error e => ⟨.error e, db, [errorFinding cid]⟩
        | .ok rels => ⟨.ok rels, storeRelationships now cid rels db, []⟩

/-- `EXISTS (SELECT 1 FROM conversation_relationships WHERE
source_conversation_id = c.id)`. -/
def hasOutgoingEdge (db : List StoredEdge) (cid : String) : Bool :=
  db.any (fun e => e.source == cid)

/-- The batch selection query: conversations with `embedding_status =
'completed'` and no outgoing relationship rows, newest `started_at` first,
at most `lim` of them. -/
def batchSelect (env : Env) (db : List StoredEdge) (lim : Nat) : List String :=
  ((List.insertionSort convGE (env.conversations.filter
      (fun c => c.2.embedding_status == "completed" && !hasOutgoingEdge db c.1))).map
    Prod.fst).take lim

/-- The aggregate counters returned by `batchProcessRelationships`. -/
structure BatchResult where
  success : Nat
  failed : Nat
  relationships : Nat
deriving Repr, DecidableEq

/-- The batch loop: each conversation goes through
`findRelatedConversations`; a thrown error is caught, logged and counted in
`failed`, and the loop continues with the next conversation. -/
def batchLoop (env : Env) (now : Int) (minSim : Rat) :
    List String → List StoredEdge → BatchResult × List StoredEdge × List String
  | [], db => (⟨0, 0, 0⟩, db, [])
  | cid :: rest, db =>
    let fr := findRelatedConversations env db now cid minSim 20
    match fr.result with
    | .ok rels =>
      let r2 := batchLoop env now minSim rest fr.edges
      (⟨r2.1.success + 1, r2.1.failed, r2.1.relationships + rels.length⟩, r2.2.1,
        fr.log ++ ("ok: Found " ++ toString rels.length
          ++ " related conversations for " ++ cid) :: r2.2.2)
    | .error _ =>
      let r2 := batchLoop env now minSim rest fr.edges
      (⟨r2.1.success, r2.1.failed + 1, r2.1.relationships⟩, r2.2.1,
        fr.log ++ ("fail: Failed to process relationships for " ++ cid) :: r2.2.2)

/-- `batchProcessRelationships(limit = 100, minSimilarity = 0.8)`. -/
def batchProcessRelationships (env : Env) (db : List StoredEdge) (now : Int)
    (lim : Nat) (minSim : Rat) : BatchResult × List StoredEdge × List String :=
  batchLoop env now minSim (batchSelect env db lim) db

/-- An environment in which conversation `c1` has no stored embedding
vector (no Qdrant point at all). -/
def envC6 : Env := ⟨[], fun _ => none, [], fun _ _ => 0⟩

/-- C6 (counterexample) -- When the conversation has no stored embedding,
`findRelatedConversations` does *not* fail with an `EmbeddingNotFound`
error reported to the caller: it logs a console warning and returns the
empty list as a successful result. -/
theorem find_related_missing_embedding_not_an_error :
    findRelatedConversations envC6 [] 0 "c1" (mkRat 8 10) 20
      = ⟨.ok [], [], [warnNoEmbedding "c1"]⟩ := by
  rfl

/-- C6 (amended) -- Whenever the conversation has no stored embedding
vector, `findRelatedConversations` returns the *successful* empty result,
leaves the relationship table untouched, and emits only the console warning
naming the conversation; no error reaches the caller. -/
theorem find_related_missing_embedding_warns (env : Env) (db : List StoredEdge)
    (now : Int) (cid : String) (threshold : Rat) (lim : Nat)
    (h : qdrantRetrieve env cid = none) :
    findRelatedConversations env db now cid threshold lim
      = ⟨.ok [], db, [warnNoEmbedding cid]⟩ := by
  rw [findRelatedConversations, h]

theorem find_related_missing_embedding_warns_witness :
    findRelatedConversations envC6 [] 5 "c9" (mkRat 8 10) 20
      = ⟨.ok [], [], [warnNoEmbedding "c9"]⟩ :=
  find_related_missing_embedding_warns envC6 [] 5 "c9" (mkRat 8 10) 20 rfl

/-- Five conversations, all with `embedding_status = 'completed'` and no
outgoing edges; `c3` has no Qdrant point (its embedding was never stored),
the other four have points but no neighbors above the threshold. -/
def envC5 : Env := ⟨
  [("c1", ⟨none, "claude-code", 50, some [], "completed"⟩),
   ("c2", ⟨none, "claude-code", 40, some [], "completed"⟩),
   ("c3", ⟨none, "claude-code", 30, some [], "completed"⟩),
   ("c4", ⟨none, "claude-code", 20, some [], "completed"⟩),
   ("c5", ⟨none, "claude-code", 10, some [], "completed"⟩)],
  fun _ => none,
  [⟨"c1", "c1"⟩, ⟨"c2", "c2"⟩, ⟨"c4", "c4"⟩, ⟨"c5", "c5"⟩],
  fun _ _ => 0⟩

/-- C5 (counterexample) -- With 5 completed conversations of which one
(`c3`) has no stored embedding, the batch does not report `success = 4`:
the missing-embedding conversation is counted as a *success* (it yields a
warning and an empty neighbor list, not an error), so the batch reports
`success = 5, failed = 0` and its summary counters carry no skip
accounting. -/
theorem batch_missing_embedding_counted_as_success :
    qdrantRetrieve envC5 "c3" = none ∧
    (∀ c ∈ envC5.conversations, c.2.embedding_status = "completed") ∧
    envC5.conversations.length = 5 ∧
    (batchProcessRelationships envC5 [] 0 100 (mkRat 8 10)).1
      = ⟨5, 0, 0⟩ := by
  refine ⟨rfl, by decide, rfl, rfl⟩

/-- C5 (amended) -- The batch path (1) selects only conversations whose
`embedding_status` is `'completed'` and which have no outgoing edges, and
(2) counts every selected conversation exactly once, as a success or as a
caught failure — a thrown error in one conversation is counted in `failed`
and does not abort the rest; but (3) a conversation with a *missing
embedding* is not an error: in the concrete 5-conversation scenario with
one unembedded conversation, the batch reports `success = 5, failed = 0`. -/
theorem batch_select_and_partial_failure (env : Env) (db : List StoredEdge)
    (lim : Nat) (now : Int) (minSim : Rat) :
    (∀ cid ∈ batchSelect env db lim, ∃ row,
        (cid, row) ∈ env.conversations ∧ row.embedding_status = "completed"
          ∧ hasOutgoingEdge db cid = false) ∧
    (∀ ids db0, (batchLoop env now minSim ids db0).1.success
        + (batchLoop env now minSim ids db0).1.failed = ids.length) ∧
    (batchProcessRelationships envC5 [] 0 100 (mkRat 8 10)).1 = ⟨5, 0, 0⟩ := by
  refine ⟨?_, ?_, rfl⟩
  · intro cid hcid
    have h1 : cid ∈ (List.insertionSort convGE (env.conversations.filter
        (fun c => c.2.embedding_status == "completed" && !hasOutgoingEdge db c.1))).map
          Prod.fst := List.take_subset _ _ hcid
    rcases List.mem_map.mp h1 with ⟨c, hc, hfst⟩
    have hc2 : c ∈ env.conversations.filter
        (fun c => c.2.embedding_status == "completed" && !hasOutgoingEdge db c.1) :=
      (List.perm_insertionSort convGE _).mem_iff.mp hc
    rcases List.mem_filter.mp hc2 with ⟨hcmem, hpred⟩
    rw [Bool.and_eq_true] at hpred
    rcases hpred with ⟨hstat, hedge⟩
    refine ⟨c.2, ?_, beq_iff_eq.mp hstat, ?_⟩
    · rw [← hfst, Prod.mk.eta]
      exact hcmem
    · rw [← hfst]
      simpa using hedge
  · intro ids
    induction ids with
    | nil => intro db0; rfl
    | cons cid rest ih =>
      intro db0
      simp only [batchLoop]
      cases hfr : (findRelatedConversations env db0 now cid minSim 20).result with
      | ok rels =>
        simp only [hfr]
        have := ih (findRelatedConversations env db0 now cid minSim 20).edges
        simp only [List.length_cons]
        omega
      | error e =>
        simp only [hfr]
        have := ih (findRelatedConversations env db0 now cid minSim 20).edges
        simp only [List.length_cons]
        omega

theorem batch_select_and_partial_failure_witness :
    ∃ row, (("c1" : String), row) ∈ envC5.conversations
      ∧ row.embedding_status = "completed" ∧ hasOutgoingEdge [] "c1" = false :=
  (batch_select_and_partial_failure envC5 [] 100 0 (mkRat 8 10)).1 "c1" (by decide)

theorem qdrantSearch_mem (env : Env) (cid : String) (threshold : Rat) (lim : Nat)
    (hit : RelHit) (h : hit ∈ qdrantSearch env cid threshold lim) :
    ∃ p ∈ env.points, hit.id = p.id ∧ hit.score = env.sim cid p.id
      ∧ threshold ≤ hit.score ∧ p.convPayload ≠ cid := by
  have h1 := List.take_subset _ _ h
  have h2 := (List.perm_insertionSort hitGE _).mem_iff.mp h1
  rcases List.mem_map.mp h2 with ⟨p, hp, heq⟩
  rcases List.mem_filter.mp hp with ⟨hpmem, hpred⟩
  rw [Bool.and_eq_true] at hpred
  rcases hpred with ⟨hthr, hne⟩
  refine ⟨p, hpmem, ?_, ?_, ?_, bne_iff_ne.mp hne⟩
  · rw [← heq]
  · rw [← heq]
  · rw [← heq]
    exact of_decide_eq_true hthr

theorem classifyLoop_mem (env : Env) (sc : Conversation)
    (hits : List RelHit) (rels : List RelationshipMatch)
    (h : classifyLoop env sc hits = .ok rels) :
    ∀ r ∈ rels, ∃ hit ∈ hits, r.id = hit.id ∧ r.score = hit.score
      ∧ (getConversationRow env hit.id).isSome = true := by
  induction hits generalizing rels with
  | nil =>
    rw [classifyLoop] at h
    injection h with h2
    subst h2
    intro r hr
    exact absurd hr (List.not_mem_nil r)
  | cons h0 rest ih =>
    rw [classifyLoop] at h
    split at h
    · intro r hr
      rcases ih rels h r hr with ⟨hit, hhit, hrest⟩
      exact ⟨hit, List.mem_cons_of_mem _ hhit, hrest⟩
    · rename_i row hrow
      split at h
      · cases h
      · rename_i ty hcl
        split at h
        · cases h
        · rename_i restRels hrest
          injection h with h2
          subst h2
          intro r hrm
          rcases List.mem_cons.mp hrm with rfl | hmem
          · refine ⟨h0, List.mem_cons_self _ _, rfl, rfl, ?_⟩
            rw [hrow]
            rfl
          · rcases ih restRels hrest r hmem with ⟨hit, hhit, hrest2⟩
            exact ⟨hit, List.mem_cons_of_mem _ hhit, hrest2⟩

/-- The invariant the spec requires of every persisted relationship row. -/
def edgeOK (e : StoredEdge) : Prop := e.source ≠ e.target ∧ 0 ≤ e.score ∧ e.score ≤ 1

theorem upsertEdge_pred (db : List StoredEdge) (e : StoredEdge)
    (hdb : ∀ x ∈ db, edgeOK x) (he : edgeOK e) : ∀ x ∈ upsertEdge db e, edgeOK x := by
  intro x hx
  rw [upsertEdge] at hx
  by_cases ha : db.any (matchesKey e.source e.target) = true
  · rw [if_pos ha] at hx
    rcases List.mem_map.mp hx with ⟨r, hr, rfl⟩
    by_cases hm : matchesKey e.source e.target r = true
    · rw [updEdge_of_matches e r hm]
      exact he
    · rw [updEdge_of_not_matches e r hm]
      exact hdb r hr
  · rw [if_neg ha] at hx
    rcases List.mem_append.mp hx with hx1 | hx2
    · exact hdb x hx1
    · rcases List.mem_singleton.mp hx2 with rfl
      exact he

theorem store_pred (now : Int) (sourceId : String) (rels : List RelationshipMatch)
    (db : List StoredEdge) (hdb : ∀ x ∈ db, edgeOK x)
    (hrels : ∀ r ∈ rels, edgeOK ⟨sourceId, r.id, r.score, r.type, now⟩) :
    ∀ x ∈ storeRelationships now sourceId rels db, edgeOK x := by
  induction rels generalizing db with
  | nil => exact hdb
  | cons r rest ih =>
    exact ih (upsertEdge db ⟨sourceId, r.id, r.score, r.type, now⟩)
      (upsertEdge_pred db _ hdb (hrels r (List.mem_cons_self _ _)))
      (fun r' hr' => hrels r' (List.mem_cons_of_mem _ hr'))

/-- C9 -- Under the vector-store contract (each point's `conversation_id`
payload is its own id, and similarities are cosine values in `[0, 1]`),
every relationship row present after a `findRelatedConversations` run on a
well-formed table satisfies `sourceId != targetId` (the neighbor query's
`must_not` filter excludes the conversation itself) and has
`similarity_score` in `[0, 1]`. -/
theorem graph_builder_edge_invariants (env : Env) (db : List StoredEdge) (now : Int)
    (cid : String) (threshold : Rat) (lim : Nat)
    (hwf : ∀ p ∈ env.points, p.convPayload = p.id)
    (hsim : ∀ a b, 0 ≤ env.sim a b ∧ env.sim a b ≤ 1)
    (hdb : ∀ e ∈ db, edgeOK e) :
    ∀ e ∈ (findRelatedConversations env db now cid threshold lim).edges, edgeOK e := by
  intro e he
  rw [findRelatedConversations] at he
  split at he
  · exact hdb e he
  · split at he
    · exact hdb e he
    · split at he
      · exact hdb e he
      · rename_i sourceConv hgc
        split at he
        · exact hdb e he
        · rename_i rels hcl
          refine store_pred now cid rels db hdb ?_ e he
          intro r hr
          rcases classifyLoop_mem env sourceConv _ rels hcl r hr with
            ⟨hit, hhit, hid, hscore, _⟩
          rcases qdrantSearch_mem env cid threshold lim hit hhit with
            ⟨p, hpmem, hid2, hscore2, _, hpayload⟩
          refine ⟨?_, ?_, ?_⟩
          · show cid ≠ r.id
            rw [hid, hid2]
            intro hc
            apply hpayload
            rw [hwf p hpmem, ← hc]
          · show 0 ≤ r.score
            rw [hscore, hscore2]
            exact (hsim cid p.id).1
          · show r.score ≤ 1
            rw [hscore, hscore2]
            exact (hsim cid p.id).2

/-- Two embedded conversations whose similarity is `0.9`: running the graph
builder on `c1` persists the single edge `(c1, c2, 0.9, references)`. -/
def envC9 : Env := ⟨
  [("c1", ⟨none, "claude-code", 20, some [], "completed"⟩),
   ("c2", ⟨none, "claude-code", 10, some [], "completed"⟩)],
  fun _ => some "hello there",
  [⟨"c1", "c1"⟩, ⟨"c2", "c2"⟩],
  fun a b => if a == "c1" && b == "c2" then mkRat 9 10 else 0⟩

theorem graph_builder_edge_invariants_witness :
    edgeOK ⟨"c1", "c2", mkRat 9 10, "references", 0⟩ :=
  graph_builder_edge_invariants envC9 [] 0 "c1" (mkRat 8 10) 20
    (by decide)
    (fun a b => by
      by_cases h : (a == "c1" && b == "c2") = true
      · have hv : envC9.sim a b = mkRat 9 10 := by
          show (if a == "c1" && b == "c2" then mkRat 9 10 else 0) = mkRat 9 10
          rw [if_pos h]
        rw [hv]
        exact ⟨by decide, by decide⟩
      · have hv : envC9.sim a b = 0 := by
          show (if a == "c1" && b == "c2" then mkRat 9 10 else 0) = 0
          rw [if_neg h]
        rw [hv]
        exact ⟨le_refl 0, by decide⟩)
    (fun e he => absurd he (List.not_mem_nil e))
    ⟨"c1", "c2", mkRat 9 10, "references", 0⟩
    (by decide)

theorem findRelated_ok_inv (env : Env) (db : List StoredEdge) (now : Int)
    (cid : String) (threshold : Rat) (lim : Nat) (rels : List RelationshipMatch)
    (hret : (qdrantRetrieve env cid).isSome = true)
    (hne : (qdrantSearch env cid threshold lim).isEmpty = false)
    (hok : (findRelatedConversations env db now cid threshold lim).result = .ok rels) :
    ∃ sourceConv, getConversation env cid = .ok sourceConv
      ∧ classifyLoop env sourceConv (qdrantSearch env cid threshold lim) = .ok rels := by
  rw [findRelatedConversations] at hok
  split at hok
  · rename_i heq
    rw [heq] at hret
    simp at hret
  · split at hok
    · rename_i hempty
      rw [hne] at hempty
      cases hempty
    · split at hok
      · cases hok
      · rename_i sourceConv hgc
        split at hok
        · cases hok
        · rename_i rels2 hcl
          injection hok with h2
          subst h2
          exact ⟨sourceConv, hgc, hcl⟩

theorem findRelated_success_form (env : Env) (db : List StoredEdge) (now : Int)
    (cid : String) (threshold : Rat) (lim : Nat)
    (sourceConv : Conversation) (rels : List RelationshipMatch)
    (hret : (qdrantRetrieve env cid).isSome = true)
    (hne : (qdrantSearch env cid threshold lim).isEmpty = false)
    (hgc : getConversation env cid = .ok sourceConv)
    (hcl : classifyLoop env sourceConv (qdrantSearch env cid threshold lim) = .ok rels) :
    findRelatedConversations env db now cid threshold lim
      = ⟨.ok rels, storeRelationships now cid rels db, []⟩ := by
  rw [findRelatedConversations]
  split
  · rename_i heq
    rw [heq] at hret
    simp at hret
  · split
    · rename_i hempty
      rw [hne] at hempty
      cases hempty
    · split
      · rename_i e heq
        rw [hgc] at heq
        cases heq
      · rename_i sc hsc
        rw [hgc] at hsc
        injection hsc with h2
        subst h2
        split
        · rename_i e heq
          rw [hcl] at heq
          cases heq
        · rename_i rels2 heq
          rw [hcl] at heq
          injection heq with h3
          subst h3
          rfl

/-- One conversation `c1` with an embedding; the vector store also holds a
point `c2` similar to `c1` at `0.9`, but the `conversations` table has no
row for `c2` (e.g. it was deleted after embedding). -/
def envC10 : Env := ⟨
  [("c1", ⟨none, "claude-code", 10, some [], "completed"⟩)],
  fun _ => none,
  [⟨"c1", "c1"⟩, ⟨"c2", "c2"⟩],
  fun a b => if a == "c1" && b == "c2" then mkRat 9 10 else 0⟩

/-- C10 (counterexample) -- A vector-store hit (`c2`, similarity `0.9`)
whose conversation row cannot be fetched is dropped with `continue`: the
call succeeds with an empty relationship list, writes no edge, and emits
*no* log entry and no count — the skipped neighbor leaves no trace
anywhere. -/
theorem find_related_silently_drops_missing_row :
    qdrantSearch envC10 "c1" (mkRat 8 10) 20 = [⟨"c2", mkRat 9 10⟩] ∧
    getConversationRow envC10 "c2" = none ∧
    findRelatedConversations envC10 [] 0 "c1" (mkRat 8 10) 20
      = ⟨.ok [], [], []⟩ :=
  ⟨rfl, rfl, rfl⟩

/-- C10 (amended) -- On any successful run, a vector-store hit whose
conversation row cannot be fetched from the database is skipped silently:
it appears in no returned relationship and the run's log is empty — the
skip is reflected in no summary count and no log entry. -/
theorem find_related_skips_missing_rows (env : Env) (db : List StoredEdge)
    (now : Int) (cid : String) (threshold : Rat) (lim : Nat)
    (hit : RelHit) (rels : List RelationshipMatch)
    (hret : (qdrantRetrieve env cid).isSome = true)
    (hhit : hit ∈ qdrantSearch env cid threshold lim)
    (hmiss : getConversationRow env hit.id = none)
    (hok : (findRelatedConversations env db now cid threshold lim).result = .ok rels) :
    (∀ r ∈ rels, r.id ≠ hit.id)
      ∧ (findRelatedConversations env db now cid threshold lim).log = [] := by
  have hne : (qdrantSearch env cid threshold lim).isEmpty = false := by
    cases hq : qdrantSearch env cid threshold lim with
    | nil =>
      rw [hq] at hhit
      exact absurd hhit (List.not_mem_nil hit)
    | cons a l => rfl
  rcases findRelated_ok_inv env db now cid threshold lim rels hret hne hok with
    ⟨sourceConv, hgc, hcl⟩
  constructor
  · intro r hr hc
    rcases classifyLoop_mem env sourceConv _ rels hcl r hr with
      ⟨hit2, _, hid, _, hsome⟩
    rw [← hid, hc, hmiss] at hsome
    simp at hsome
  · rw [findRelated_success_form env db now cid threshold lim sourceConv rels
      hret hne hgc hcl]

theorem find_related_skips_missing_rows_witness :
    (∀ r ∈ ([] : List RelationshipMatch), r.id ≠ (⟨"c2", mkRat 9 10⟩ : RelHit).id)
      ∧ (findRelatedConversations envC10 [] 0 "c1" (mkRat 8 10) 20).log = [] :=
  find_related_skips_missing_rows envC10 [] 0 "c1" (mkRat 8 10) 20
    ⟨"c2", mkRat 9 10⟩ [] (by decide) (by decide) (by decide) (by decide)
